import Mathlib

/-!
Verification of the Zarly giveaway subsystem specification against the
repository sources.

The development shallowly embeds, in order:

* the `giveaways` / `giveaway_entries` schema of
  `packages/api/src/database/migrations/003_giveaway_tables.up.sql`
  (column defaults and CHECK constraints);
* the XP level functions of
  `packages/api/src/database/migrations/004_xp_tables.up.sql`;
* `DatabaseConnection.query` and `isConnectionError` of
  `packages/api/src/config/database.config.ts`;
* the Giveaway State Machine, Winner Selector, Entry Validator and the
  idempotent Job Scheduler.  These four components are declared in the
  design documents but have no implementation in the repository sources,
  so they are modelled from the specification text (sections 4.1-4.4);
  each such definition carries a `Modelled from the spec` doc comment.
-/

namespace Zarly

/-! ## Schema of migration 003 (`giveaways`, `giveaway_entries`) -/

/-- A row of the `giveaways` table, with the columns of migration
`003_giveaway_tables.up.sql`.  Timestamps are modelled as `Nat`,
`TEXT[]` columns as `List String`, nullable columns as `Option`. -/
structure GiveawayRow where
  guild_id : String
  prize : String
  description : Option String
  winner_count : Int
  channel_id : String
  message_id : Option String
  required_role_ids : List String
  min_level : Int
  min_account_age_days : Int
  blacklisted_user_ids : List String
  ends_at : Nat
  claim_timeout_seconds : Int
  status : String
  winner_user_ids : List String
  excluded_user_ids : List String
  reroll_count : Int
  max_rerolls : Int
  created_by : String
deriving DecidableEq

/-- The status values admitted by migration 003, line 30:
`CHECK (status IN ('active', 'ended', 'completed', 'cancelled'))`. -/
def giveawayStatusCheckList : List String :=
  ["active", "ended", "completed", "cancelled"]

/-- Whether a status string passes the `giveaways.status` CHECK constraint. -/
def statusAdmissible (s : String) : Bool :=
  giveawayStatusCheckList.contains s

/-- The CHECK constraints of the `giveaways` table: the status CHECK of
line 30 and `winner_count > 0` of line 13.  A row can be persisted iff
this predicate holds. -/
def giveawayRowCheck (r : GiveawayRow) : Bool :=
  statusAdmissible r.status && decide (0 < r.winner_count)

/-- The six giveaway states named by the specification (section 3). -/
inductive SpecStatus where
  | Active | Ended | AwaitingClaim | Completed | ExhaustedNoWinner | Cancelled
deriving DecidableEq

/-- The store-level string for each specification state (the migration
stores statuses lowercase, e.g. `'active'`). -/
def SpecStatus.dbString : SpecStatus → String
  | .Active => "active"
  | .Ended => "ended"
  | .AwaitingClaim => "awaiting_claim"
  | .Completed => "completed"
  | .ExhaustedNoWinner => "exhausted_no_winner"
  | .Cancelled => "cancelled"

/-- An INSERT into `giveaways` that supplies only the columns without a
DEFAULT (the NOT NULL columns `guild_id`, `prize`, `channel_id`,
`ends_at`, `created_by`); every remaining column takes the DEFAULT
declared in migration 003: `winner_count` 1, `min_level` 0,
`min_account_age_days` 0, `claim_timeout_seconds` 300, `status`
`'active'`, `reroll_count` 0, `max_rerolls` 3, nullable and array
columns empty. -/
def insertGiveawayDefaults (guild prize chan : String) (ends : Nat)
    (creator : String) : GiveawayRow :=
  { guild_id := guild
    prize := prize
    description := none
    winner_count := 1
    channel_id := chan
    message_id := none
    required_role_ids := []
    min_level := 0
    min_account_age_days := 0
    blacklisted_user_ids := []
    ends_at := ends
    claim_timeout_seconds := 300
    status := "active"
    winner_user_ids := []
    excluded_user_ids := []
    reroll_count := 0
    max_rerolls := 3
    created_by := creator }

/-- A row of the `giveaway_entries` table (migration 003, lines 47-58).
The `UNIQUE(giveaway_id, user_id)` constraint is enforced by
`insertEntryRow` below.  `giveaway_id` is modelled as `Nat`. -/
structure EntryRow where
  giveaway_id : Nat
  user_id : String
  guild_id : String
  entered_at : Nat
deriving DecidableEq

/-- INSERT into `giveaway_entries` under the
`UNIQUE(giveaway_id, user_id)` constraint: the insert is rejected
(`none`, leaving the table unchanged) when a row with the same
`(giveaway_id, user_id)` pair already exists. -/
def insertEntryRow (table : List EntryRow) (r : EntryRow) :
    Option (List EntryRow) :=
  if table.any fun e => e.giveaway_id == r.giveaway_id && e.user_id == r.user_id
  then none
  else some (r :: table)

/-! ## XP level functions of migration 004 -/

/-- `calculate_level` of migration `004_xp_tables.up.sql`:
`FLOOR(SQRT(xp::NUMERIC / 100))::INTEGER`.  The quotient
`xp::NUMERIC / 100` is the exact rational `xp / 100`; for a
nonnegative rational `q` the integer `FLOOR(SQRT(q))` equals
`Int.sqrt ⌊q⌋` (the square root is monotone and `⌊q⌋ ≤ q < ⌊q⌋ + 1`),
which is the executable form used here. -/
def calculate_level (xp : ℤ) : ℤ :=
  Int.sqrt ⌊(xp : ℚ) / 100⌋

/-- `xp_for_level` of migration `004_xp_tables.up.sql`:
`(lvl * lvl * 100)::BIGINT`. -/
def xp_for_level (lvl : ℤ) : ℤ :=
  lvl * lvl * 100

/-! ## `DatabaseConnection` of `config/database.config.ts` -/

/-- A JS error as inspected by `isConnectionError`: an optional `code`
property and a `message` string. -/
structure PgError where
  code : Option String
  message : String
deriving DecidableEq

/-- `connectionErrorCodes` of `database.config.ts`, lines 127-134. -/
def connectionErrorCodes : List String :=
  ["ECONNREFUSED", "ENOTFOUND", "ETIMEDOUT", "ECONNRESET", "57P01", "57P03"]

/-- Whether the first list is an initial segment of the second. -/
def startsWithChars : List Char → List Char → Bool
  | [], _ => true
  | _ :: _, [] => false
  | a :: as, b :: bs => a == b && startsWithChars as bs

/-- Whether `needle` occurs contiguously inside the second list. -/
def hasSegment (needle : List Char) : List Char → Bool
  | [] => startsWithChars needle []
  | b :: bs => startsWithChars needle (b :: bs) || hasSegment needle bs

/-- JS `hay.includes(needle)` on strings. -/
def strIncludes (hay needle : String) : Bool :=
  hasSegment needle.data hay.data

/-- `DatabaseConnection.isConnectionError` (lines 126-141): the error
code is one of `connectionErrorCodes`, or the message contains
`'Connection terminated'` or `'Connection refused'`.  A JS error whose
`code` is `undefined` matches no code (`Array.includes(undefined)` on
this array is false). -/
def isConnectionError (e : PgError) : Bool :=
  (match e.code with
   | some c => connectionErrorCodes.contains c
   | none => false)
  || strIncludes e.message "Connection terminated"
  || strIncludes e.message "Connection refused"

/-- The delay slept after failed attempt number `attempt` (line 109):
`Math.min(1000 * Math.pow(2, attempt - 1), 5000)` milliseconds. -/
def retrySleep (attempt : Nat) : Nat :=
  min (1000 * 2 ^ (attempt - 1)) 5000

/-- The retry loop of `DatabaseConnection.query` (lines 96-121), from
loop counter `attempt` on.  `outcome n` is the result `this.pool.query`
would produce on the n-th attempt.  Returns the overall result
(`Except.error none` models the final `throw lastError` with
`lastError` still `null`, reachable only when the loop body never ran)
together with the list of delays slept, in order.  On an attempt that
fails with a connection error while `attempt < retries`, the loop
sleeps `retrySleep attempt` and continues; on any other failure it
rethrows that error at once. -/
def queryFrom (outcome : Nat → Except PgError α) (retries attempt : Nat) :
    Except (Option PgError) α × List Nat :=
  if _h : attempt ≤ retries then
    match outcome attempt with
    | .ok v => (.ok v, [])
    | .error e =>
      if attempt < retries && isConnectionError e then
        let rest := queryFrom outcome retries (attempt + 1)
        (rest.1, retrySleep attempt :: rest.2)
      else (.error (some e), [])
  else (.error none, [])
termination_by retries + 1 - attempt
decreasing_by simp_wf; omega

/-- `DatabaseConnection.query(text, params, retries)`: the loop starts
at `attempt = 1`. -/
def query (outcome : Nat → Except PgError α) (retries : Nat) :
    Except (Option PgError) α × List Nat :=
  queryFrom outcome retries 1

/-- The default of the `retries` parameter of `query`. -/
def defaultRetries : Nat := 3

/-! ## Giveaway State Machine

Modelled from the spec: the Giveaway State Machine, Entry Validator and
Winner Selector (spec sections 4.1-4.3) are declared in the design
documents (`GiveawayController`, `GiveawayWorker`) but have no
implementation under the repository sources, so the definitions below
follow the specification text. -/

/-- Modelled from the spec: entry requirements of a giveaway
(section 3, Giveaway attributes). -/
structure Requirements where
  required_role_ids : List String
  min_level : Nat
  min_account_age_days : Nat
  blacklisted_user_ids : List String
deriving DecidableEq

/-- Modelled from the spec: the candidate entrant attributes the Entry
Validator inspects (section 4.1, checks (c)-(f)). -/
structure Candidate where
  user_id : String
  role_ids : List String
  level : Nat
  account_age_days : Nat
deriving DecidableEq

/-- Modelled from the spec: a Giveaway record (section 3).  Entries are
`(user_id, entered_at)` pairs for this giveaway, newest first. -/
structure Giveaway where
  status : SpecStatus
  reqs : Requirements
  ends_at : Nat
  claim_timeout_seconds : Nat
  max_reroll_count : Nat
  reroll_count : Nat
  entries : List (String × Nat)
  announced_winner_id : Option String
  excluded_user_ids : List String
deriving DecidableEq

/-- Modelled from the spec: a freshly created giveaway — status Active,
no entries, `reroll_count` 0, no announced winner, empty exclusion
set. -/
def mkGiveaway (reqs : Requirements) (ends claimTimeout maxReroll : Nat) :
    Giveaway :=
  { status := .Active
    reqs := reqs
    ends_at := ends
    claim_timeout_seconds := claimTimeout
    max_reroll_count := maxReroll
    reroll_count := 0
    entries := []
    announced_winner_id := none
    excluded_user_ids := [] }

/-- Modelled from the spec: the enumerable rejection reasons of the
Entry Validator (section 4.1). -/
inductive EntryRejection where
  | GiveawayNotActive
  | DuplicateEntry
  | Blacklisted
  | MissingRequiredRole
  | LevelTooLow
  | AccountTooYoung
deriving DecidableEq

/-- Result of an `Enter` call (section 6). -/
inductive EnterResult where
  | Accepted
  | Rejected (reason : EntryRejection)
deriving DecidableEq

/-- Modelled from the spec: `Validate(giveaway, candidateUser)` of
section 4.1 — checks (a)-(f) in order, short-circuiting on the first
failure; `none` means Accepted. -/
def validateEntry (g : Giveaway) (c : Candidate) (now : Nat) :
    Option EntryRejection :=
  if ¬(g.status = SpecStatus.Active ∧ now < g.ends_at) then
    some .GiveawayNotActive
  else if (g.entries.map Prod.fst).contains c.user_id then
    some .DuplicateEntry
  else if g.reqs.blacklisted_user_ids.contains c.user_id then
    some .Blacklisted
  else if ¬(∀ r ∈ g.reqs.required_role_ids, r ∈ c.role_ids) then
    some .MissingRequiredRole
  else if c.level < g.reqs.min_level then
    some .LevelTooLow
  else if c.account_age_days < g.reqs.min_account_age_days then
    some .AccountTooYoung
  else none

/-- Modelled from the spec: `Enter(giveaway_id, user_id)` — on Accepted
persist an Entry row, on Rejected record nothing (section 4.1). -/
def enter (g : Giveaway) (c : Candidate) (now : Nat) :
    Giveaway × EnterResult :=
  match validateEntry g c now with
  | some reason => (g, .Rejected reason)
  | none => ({ g with entries := (c.user_id, now) :: g.entries }, .Accepted)

/-- Modelled from the spec: `SelectWinner(candidatePool, excluded)` of
section 4.2.  The pool minus the exclusion set is computed; `seed`
makes the statistically-uniform generator explicit (any index can be
drawn, depending on the seed); `none` is `EmptyPool`. -/
def selectWinner (pool excluded : List String) (seed : Nat) :
    Option String :=
  let cs := pool.filter fun u => !(excluded.contains u)
  if hcs : cs.length = 0 then none
  else some (cs.get ⟨seed % cs.length, Nat.mod_lt _ (Nat.pos_of_ne_zero hcs)⟩)

/-- Insert into the `excluded_user_ids` set (sets grow monotonically;
inserting a member is a no-op). -/
def insertUser (u : String) (l : List String) : List String :=
  if l.contains u then l else u :: l

/-- Modelled from the spec: the End transition (section 4.3) — if the
status is not Active the handler is a no-op (duplicate delivery);
otherwise entries close and winner selection runs at once: on a pick,
persist `announced_winner_id` and status AwaitingClaim with
`reroll_count` unchanged; on EmptyPool, status ExhaustedNoWinner.
The transient Ended status never outlives the handler. -/
def endGiveaway (g : Giveaway) (seed : Nat) : Giveaway :=
  if g.status = SpecStatus.Active then
    match selectWinner (g.entries.map Prod.fst) g.excluded_user_ids seed with
    | some w => { g with status := .AwaitingClaim, announced_winner_id := some w }
    | none => { g with status := .ExhaustedNoWinner }
  else g

/-- Result of a `Claim` call (section 4.3). -/
inductive ClaimResult where
  | Confirmed
  | RejectedNotWinner
  | RejectedAlreadyResolved
deriving DecidableEq

/-- Modelled from the spec: the Claim transition (section 4.3) —
rejected unless the status is still AwaitingClaim and the claimant is
the announced winner; on success status Completed. -/
def claimPrize (g : Giveaway) (claimant : String) :
    Giveaway × ClaimResult :=
  if g.status = SpecStatus.AwaitingClaim then
    if g.announced_winner_id = some claimant then
      ({ g with status := .Completed }, .Confirmed)
    else (g, .RejectedNotWinner)
  else (g, .RejectedAlreadyResolved)

/-- Modelled from the spec: the claim-timeout transition (section 4.3
and Scenario B) — no-op unless AwaitingClaim; otherwise the announced
winner joins `excluded_user_ids` first; at the reroll bound the status
becomes ExhaustedNoWinner with no further selection; below the bound
the Winner Selector runs against the enlarged exclusion set, and
either a new winner is announced with `reroll_count` incremented, or
an empty pool ends the giveaway as ExhaustedNoWinner with
`reroll_count` untouched (Scenario B: no valid reroll target
existed). -/
def claimTimeout (g : Giveaway) (seed : Nat) : Giveaway :=
  if g.status = SpecStatus.AwaitingClaim then
    match g.announced_winner_id with
    | some w =>
      let ex := insertUser w g.excluded_user_ids
      if g.max_reroll_count ≤ g.reroll_count then
        { g with status := .ExhaustedNoWinner, excluded_user_ids := ex }
      else
        match selectWinner (g.entries.map Prod.fst) ex seed with
        | some w2 =>
          { g with
              reroll_count := g.reroll_count + 1
              excluded_user_ids := ex
              announced_winner_id := some w2 }
        | none => { g with status := .ExhaustedNoWinner, excluded_user_ids := ex }
    | none => g
  else g

/-- Modelled from the spec: Cancel (section 4.3) — permitted only from
Active; terminal; no winner selection. -/
def cancelGiveaway (g : Giveaway) : Giveaway :=
  if g.status = SpecStatus.Active then { g with status := .Cancelled } else g

/-- The operations that can reach a giveaway row. -/
inductive Event where
  | enterReq (c : Candidate) (now : Nat)
  | endJob (seed : Nat)
  | claimReq (u : String)
  | timeoutJob (seed : Nat)
  | cancelReq
deriving DecidableEq

/-- One state-machine step. -/
def step (g : Giveaway) : Event → Giveaway
  | .enterReq c now => (enter g c now).1
  | .endJob seed => endGiveaway g seed
  | .claimReq u => (claimPrize g u).1
  | .timeoutJob seed => claimTimeout g seed
  | .cancelReq => cancelGiveaway g

/-- A run of the state machine over a sequence of events. -/
def run (g : Giveaway) (es : List Event) : Giveaway :=
  es.foldl step g

/-! ## Idempotent Job Scheduler

Modelled from the spec: the Job Scheduler and Idempotency Ledger
(sections 3 and 4.4) have no implementation under the repository
sources. -/

/-- Modelled from the spec: scheduler state — the giveaway row, the
Idempotency Ledger (job keys recorded Succeeded) and a count of
notification side effects handed to the Notification Sink. -/
structure SchedState where
  giveaway : Giveaway
  ledger : List String
  announceCount : Nat
deriving DecidableEq

/-- Modelled from the spec: whether running the transition of an event
against giveaway state `g` emits a notification (winner announcement
or exhaustion notice); a handler whose leading status check fails
notifies nothing. -/
def emitsAnnouncement (g : Giveaway) : Event → Bool
  | .endJob _ => g.status = SpecStatus.Active
  | .timeoutJob _ =>
      g.status = SpecStatus.AwaitingClaim && g.announced_winner_id.isSome
  | _ => false

/-- A scheduled job: its stable `job_key` and the transition it runs. -/
structure Job where
  job_key : String
  event : Event
deriving DecidableEq

/-- Modelled from the spec: `Execute(job)` of section 4.4 — before
invoking the handler, the Idempotency Ledger is consulted for
`job_key`; if already Succeeded the invocation is skipped (duplicate
delivery suppression).  Otherwise the transition runs, its
notification effect is emitted, and the key is recorded. -/
def executeJob (s : SchedState) (j : Job) : SchedState :=
  if s.ledger.contains j.job_key then s
  else
    { giveaway := step s.giveaway j.event
      ledger := j.job_key :: s.ledger
      announceCount :=
        s.announceCount + (if emitsAnnouncement s.giveaway j.event then 1 else 0) }

/-- ScheduledJob statuses (spec section 3). -/
inductive JobStatus where
  | Pending | Running | Succeeded | Failed | DeadLettered
deriving DecidableEq

/-- Modelled from the spec: the retry-relevant attributes of a
ScheduledJob record (section 3). -/
structure JobRec where
  attempt_count : Nat
  jobStatus : JobStatus
  next_retry_at : Option Nat
deriving DecidableEq

/-- `base_delay` of section 4.4: one second. -/
def baseDelay : Nat := 1

/-- The retry budget of section 4.4. -/
def maxAttempts : Nat := 3

/-- The backoff delay after the failure that set `attempt_count` to the
given value: `base_delay * 2^(attempt_count-1)` seconds. -/
def retryDelay (attemptCount : Nat) : Nat :=
  baseDelay * 2 ^ (attemptCount - 1)

/-- Modelled from the spec: the scheduler's handling of a handler
exception or explicit retryable error (section 4.4) — increment
`attempt_count`; within the budget, re-enqueue with
`next_retry_at = now + base_delay * 2^(attempt_count-1)`; beyond it,
mark DeadLettered (operator-visible, manual intervention). -/
def onFailure (now : Nat) (j : JobRec) : JobRec :=
  let a := j.attempt_count + 1
  if a ≤ maxAttempts then
    { attempt_count := a
      jobStatus := .Pending
      next_retry_at := some (now + retryDelay a) }
  else
    { attempt_count := a, jobStatus := .DeadLettered, next_retry_at := none }

/-- Modelled from the spec: a worker executing a due job — only Pending
jobs are claimed; a DeadLettered job is never picked up again (manual
intervention only, never silently dropped).  `handlerOk` is whether
the wrapped handler succeeded. -/
def executeDue (j : JobRec) (now : Nat) (handlerOk : Bool) : JobRec :=
  if j.jobStatus = JobStatus.Pending then
    if handlerOk then { j with jobStatus := .Succeeded }
    else onFailure now j
  else j

/-- The invariant of spec section 3 maintained by every transition:
reroll bound, no announced winner while Active, entry uniqueness. -/
def StateInv (g : Giveaway) : Prop :=
  g.reroll_count ≤ g.max_reroll_count
  ∧ (g.status = SpecStatus.Active → g.announced_winner_id = none)
  ∧ (g.entries.map Prod.fst).Nodup

/-! ### Concrete fixtures used by witnesses -/

/-- A giveaway with no entry requirements. -/
def wReqs : Requirements :=
  { required_role_ids := [], min_level := 0, min_account_age_days := 0,
    blacklisted_user_ids := [] }

/-- A candidate with empty attributes. -/
def wCand (u : String) : Candidate :=
  { user_id := u, role_ids := [], level := 0, account_age_days := 0 }

/-- Two entries then the end job. -/
def wTraceP : List Event :=
  [.enterReq (wCand "a") 0, .enterReq (wCand "b") 1, .endJob 0]

/-- One claim-timeout job. -/
def wTraceQ : List Event := [.timeoutJob 0]

/-- An awaiting-claim giveaway whose reroll budget is already spent. -/
def wMaxed : Giveaway :=
  { status := .AwaitingClaim, reqs := wReqs, ends_at := 10,
    claim_timeout_seconds := 300, max_reroll_count := 2, reroll_count := 2,
    entries := [("b", 0)], announced_winner_id := some "b",
    excluded_user_ids := [] }

/-- Scenario B fixture: a single entrant who is the announced winner. -/
def wSoloAwait : Giveaway :=
  { status := .AwaitingClaim, reqs := wReqs, ends_at := 10,
    claim_timeout_seconds := 300, max_reroll_count := 5, reroll_count := 0,
    entries := [("solo", 0)], announced_winner_id := some "solo",
    excluded_user_ids := [] }

/-- The giveaway after user `a` entered. -/
def wG1 : Giveaway :=
  { mkGiveaway wReqs 10 300 5 with entries := [("a", 0)] }

/-- An entry row and a conflicting row with the same identity pair. -/
def wRow : EntryRow :=
  { giveaway_id := 1, user_id := "a", guild_id := "g", entered_at := 0 }

def wRow2 : EntryRow :=
  { giveaway_id := 1, user_id := "a", guild_id := "g", entered_at := 5 }

/-- A job record after one failed attempt. -/
def wJob : JobRec :=
  { attempt_count := 1, jobStatus := .Running, next_retry_at := none }

/-- A dead-lettered job record. -/
def wDead : JobRec :=
  { attempt_count := 4, jobStatus := .DeadLettered, next_retry_at := none }

/-- A connection-refused error. -/
def wConnErr : PgError :=
  { code := some "ECONNREFUSED", message := "Connection refused" }

/-- An attempt sequence failing once with a connection error. -/
def wOutcome : Nat → Except PgError Nat :=
  fun n => if n = 1 then .error wConnErr else .ok 42

/-- A row inserted with the migration defaults. -/
def wRowDefault : GiveawayRow := insertGiveawayDefaults "g" "p" "c" 10 "u"

/-! ## Helper lemmas on the state machine -/

theorem mem_insertUser_self (u : String) (l : List String) : u ∈ insertUser u l := by
  unfold insertUser
  split
  · next h => simpa using h
  · exact List.mem_cons_self _ _

theorem mem_insertUser (u v : String) (l : List String) (h : v ∈ l) :
    v ∈ insertUser u l := by
  unfold insertUser
  split
  · exact h
  · exact List.mem_cons_of_mem _ h

/-- A selected winner belongs to the pool and avoids the exclusion set. -/
theorem selectWinner_mem {pool ex : List String} {s : Nat} {w : String}
    (h : selectWinner pool ex s = some w) : w ∈ pool ∧ w ∉ ex := by
  unfold selectWinner at h
  dsimp only at h
  split at h
  · exact absurd h (by simp)
  · next hcs =>
    rw [Option.some_inj] at h
    have hw : w ∈ pool.filter fun u => !(ex.contains u) := by
      rw [← h]; exact List.get_mem _ _ _
    have hmf := List.mem_filter.mp hw
    refine ⟨hmf.1, ?_⟩
    have hb := hmf.2
    simp at hb
    exact hb

/-- An accepted entry passed checks (a) and (b) of the validator. -/
theorem validateEntry_none {g : Giveaway} {c : Candidate} {now : Nat}
    (h : validateEntry g c now = none) :
    g.status = SpecStatus.Active ∧ now < g.ends_at
    ∧ (g.entries.map Prod.fst).contains c.user_id = false := by
  unfold validateEntry at h
  split at h
  · exact absurd h (by simp)
  · next hcond =>
    push_neg at hcond
    split at h
    · exact absurd h (by simp)
    · next hdup =>
      exact ⟨hcond.1, hcond.2, by simpa using hdup⟩

/-- An accepted `enter` call is exactly the validated append. -/
theorem enter_accepted {g g1 : Giveaway} {c : Candidate} {now : Nat}
    (h : enter g c now = (g1, EnterResult.Accepted)) :
    validateEntry g c now = none
    ∧ g1 = { g with entries := (c.user_id, now) :: g.entries } := by
  unfold enter at h
  split at h
  · next heq => exact absurd (congrArg Prod.snd h) (by simp)
  · next heq => exact ⟨heq, (congrArg Prod.fst h).symm⟩

theorem enter_fst_cases (g : Giveaway) (c : Candidate) (now : Nat) :
    (enter g c now).1 = g
    ∨ (enter g c now).1 = { g with entries := (c.user_id, now) :: g.entries } := by
  unfold enter
  split <;> simp

/-! ### Branch equations for each transition -/

theorem enter_rejected {g : Giveaway} {c : Candidate} {now : Nat} {r : EntryRejection}
    (hv : validateEntry g c now = some r) : enter g c now = (g, .Rejected r) := by
  unfold enter; rw [hv]

theorem enter_ok {g : Giveaway} {c : Candidate} {now : Nat}
    (hv : validateEntry g c now = none) :
    enter g c now = ({ g with entries := (c.user_id, now) :: g.entries }, .Accepted) := by
  unfold enter; rw [hv]

theorem endGiveaway_noop {g : Giveaway} (s : Nat)
    (hst : ¬ g.status = SpecStatus.Active) : endGiveaway g s = g := by
  unfold endGiveaway; rw [if_neg hst]

theorem endGiveaway_pick {g : Giveaway} {s : Nat} {w : String}
    (hst : g.status = SpecStatus.Active)
    (hsel : selectWinner (g.entries.map Prod.fst) g.excluded_user_ids s = some w) :
    endGiveaway g s
      = { g with status := SpecStatus.AwaitingClaim, announced_winner_id := some w } := by
  unfold endGiveaway; rw [if_pos hst, hsel]

theorem endGiveaway_empty {g : Giveaway} {s : Nat}
    (hst : g.status = SpecStatus.Active)
    (hsel : selectWinner (g.entries.map Prod.fst) g.excluded_user_ids s = none) :
    endGiveaway g s = { g with status := SpecStatus.ExhaustedNoWinner } := by
  unfold endGiveaway; rw [if_pos hst, hsel]

theorem claimPrize_confirmed {g : Giveaway} {u : String}
    (hst : g.status = SpecStatus.AwaitingClaim)
    (hwin : g.announced_winner_id = some u) :
    claimPrize g u = ({ g with status := SpecStatus.Completed }, .Confirmed) := by
  unfold claimPrize; rw [if_pos hst, if_pos hwin]

theorem claimPrize_notwinner {g : Giveaway} {u : String}
    (hst : g.status = SpecStatus.AwaitingClaim)
    (hwin : ¬ g.announced_winner_id = some u) :
    claimPrize g u = (g, .RejectedNotWinner) := by
  unfold claimPrize; rw [if_pos hst, if_neg hwin]

theorem claimPrize_resolved {g : Giveaway} (u : String)
    (hst : ¬ g.status = SpecStatus.AwaitingClaim) :
    claimPrize g u = (g, .RejectedAlreadyResolved) := by
  unfold claimPrize; rw [if_neg hst]

theorem claimTimeout_noop {g : Giveaway} (s : Nat)
    (hst : ¬ g.status = SpecStatus.AwaitingClaim) : claimTimeout g s = g := by
  unfold claimTimeout; rw [if_neg hst]

theorem claimTimeout_nowinner {g : Giveaway} (s : Nat)
    (hst : g.status = SpecStatus.AwaitingClaim)
    (hw : g.announced_winner_id = none) : claimTimeout g s = g := by
  unfold claimTimeout; rw [if_pos hst, hw]

theorem claimTimeout_max {g : Giveaway} {w : String} (s : Nat)
    (hst : g.status = SpecStatus.AwaitingClaim)
    (hw : g.announced_winner_id = some w)
    (hmax : g.max_reroll_count ≤ g.reroll_count) :
    claimTimeout g s
      = { g with status := SpecStatus.ExhaustedNoWinner,
                 excluded_user_ids := insertUser w g.excluded_user_ids } := by
  unfold claimTimeout; rw [if_pos hst, hw]; dsimp only; rw [if_pos hmax]

theorem claimTimeout_reroll {g : Giveaway} {w w2 : String} {s : Nat}
    (hst : g.status = SpecStatus.AwaitingClaim)
    (hw : g.announced_winner_id = some w)
    (hmax : ¬ g.max_reroll_count ≤ g.reroll_count)
    (hsel : selectWinner (g.entries.map Prod.fst)
              (insertUser w g.excluded_user_ids) s = some w2) :
    claimTimeout g s
      = { g with reroll_count := g.reroll_count + 1,
                 excluded_user_ids := insertUser w g.excluded_user_ids,
                 announced_winner_id := some w2 } := by
  unfold claimTimeout; rw [if_pos hst, hw]; dsimp only; rw [if_neg hmax, hsel]

theorem claimTimeout_empty {g : Giveaway} {w : String} {s : Nat}
    (hst : g.status = SpecStatus.AwaitingClaim)
    (hw : g.announced_winner_id = some w)
    (hmax : ¬ g.max_reroll_count ≤ g.reroll_count)
    (hsel : selectWinner (g.entries.map Prod.fst)
              (insertUser w g.excluded_user_ids) s = none) :
    claimTimeout g s
      = { g with status := SpecStatus.ExhaustedNoWinner,
                 excluded_user_ids := insertUser w g.excluded_user_ids } := by
  unfold claimTimeout; rw [if_pos hst, hw]; dsimp only; rw [if_neg hmax, hsel]

theorem cancel_active {g : Giveaway} (hst : g.status = SpecStatus.Active) :
    cancelGiveaway g = { g with status := SpecStatus.Cancelled } := by
  unfold cancelGiveaway; rw [if_pos hst]

theorem cancel_noop {g : Giveaway} (hst : ¬ g.status = SpecStatus.Active) :
    cancelGiveaway g = g := by
  unfold cancelGiveaway; rw [if_neg hst]


/-! ### Invariants and temporal lemmas -/

theorem step_excluded_mono (g : Giveaway) (e : Event) {u : String}
    (h : u ∈ g.excluded_user_ids) : u ∈ (step g e).excluded_user_ids := by
  cases e <;>
    simp only [step, enter, endGiveaway, claimPrize, claimTimeout, cancelGiveaway] <;>
    (repeat' split) <;>
    first
      | exact h
      | exact mem_insertUser _ _ _ h

theorem stateInv_mk (reqs : Requirements) (ends claimTimeout maxReroll : Nat) :
    StateInv (mkGiveaway reqs ends claimTimeout maxReroll) := by
  refine ⟨Nat.zero_le _, fun _ => rfl, ?_⟩
  simp [mkGiveaway]

theorem stateInv_step {g : Giveaway} (e : Event) (h : StateInv g) :
    StateInv (step g e) := by
  obtain ⟨h1, h2, h3⟩ := h
  cases e with
  | enterReq c now =>
    show StateInv (enter g c now).1
    cases hv : validateEntry g c now with
    | some r =>
      rw [enter_rejected hv]
      exact ⟨h1, h2, h3⟩
    | none =>
      rw [enter_ok hv]
      refine ⟨h1, h2, ?_⟩
      have hdup := (validateEntry_none hv).2.2
      simp only [List.map_cons, List.nodup_cons]
      exact ⟨by simpa using hdup, h3⟩
  | endJob s =>
    show StateInv (endGiveaway g s)
    by_cases hst : g.status = SpecStatus.Active
    · cases hsel : selectWinner (g.entries.map Prod.fst) g.excluded_user_ids s with
      | some w =>
        rw [endGiveaway_pick hst hsel]
        exact ⟨h1, fun hx => absurd hx (by simp), h3⟩
      | none =>
        rw [endGiveaway_empty hst hsel]
        exact ⟨h1, fun hx => absurd hx (by simp), h3⟩
    · rw [endGiveaway_noop s hst]; exact ⟨h1, h2, h3⟩
  | claimReq u =>
    show StateInv (claimPrize g u).1
    by_cases hst : g.status = SpecStatus.AwaitingClaim
    · by_cases hwin : g.announced_winner_id = some u
      · rw [claimPrize_confirmed hst hwin]
        exact ⟨h1, fun hx => absurd hx (by simp), h3⟩
      · rw [claimPrize_notwinner hst hwin]; exact ⟨h1, h2, h3⟩
    · rw [claimPrize_resolved u hst]; exact ⟨h1, h2, h3⟩
  | timeoutJob s =>
    show StateInv (claimTimeout g s)
    by_cases hst : g.status = SpecStatus.AwaitingClaim
    · cases hao : g.announced_winner_id with
      | none => rw [claimTimeout_nowinner s hst hao]; exact ⟨h1, h2, h3⟩
      | some w =>
        by_cases hmax : g.max_reroll_count ≤ g.reroll_count
        · rw [claimTimeout_max s hst hao hmax]
          exact ⟨h1, fun hx => absurd hx (by simp), h3⟩
        · cases hsel : selectWinner (g.entries.map Prod.fst)
              (insertUser w g.excluded_user_ids) s with
          | some w2 =>
            rw [claimTimeout_reroll hst hao hmax hsel]
            refine ⟨?_, ?_, h3⟩
            · show g.reroll_count + 1 ≤ g.max_reroll_count
              omega
            · intro hx
              exact absurd hx (by simp_all)
          | none =>
            rw [claimTimeout_empty hst hao hmax hsel]
            exact ⟨h1, fun hx => absurd hx (by simp), h3⟩
    · rw [claimTimeout_noop s hst]; exact ⟨h1, h2, h3⟩
  | cancelReq =>
    show StateInv (cancelGiveaway g)
    by_cases hst : g.status = SpecStatus.Active
    · rw [cancel_active hst]
      exact ⟨h1, fun hx => absurd hx (by simp), h3⟩
    · rw [cancel_noop hst]; exact ⟨h1, h2, h3⟩

theorem step_announced_change {g : Giveaway} (e : Event)
    (hInv : g.status = SpecStatus.Active → g.announced_winner_id = none)
    {w : String} (hw : g.announced_winner_id = some w)
    (hch : (step g e).announced_winner_id ≠ some w) :
    w ∈ (step g e).excluded_user_ids := by
  cases e with
  | enterReq c now =>
    exfalso
    apply hch
    show (enter g c now).1.announced_winner_id = some w
    cases hv : validateEntry g c now with
    | some r => rw [enter_rejected hv]; exact hw
    | none => rw [enter_ok hv]; exact hw
  | endJob s =>
    by_cases hst : g.status = SpecStatus.Active
    · rw [hInv hst] at hw; exact absurd hw (by simp)
    · exfalso
      apply hch
      show (endGiveaway g s).announced_winner_id = some w
      rw [endGiveaway_noop s hst]; exact hw
  | claimReq u =>
    exfalso
    apply hch
    show (claimPrize g u).1.announced_winner_id = some w
    by_cases hst : g.status = SpecStatus.AwaitingClaim
    · by_cases hwin : g.announced_winner_id = some u
      · rw [claimPrize_confirmed hst hwin]; exact hw
      · rw [claimPrize_notwinner hst hwin]; exact hw
    · rw [claimPrize_resolved u hst]; exact hw
  | timeoutJob s =>
    show w ∈ (claimTimeout g s).excluded_user_ids
    by_cases hst : g.status = SpecStatus.AwaitingClaim
    · by_cases hmax : g.max_reroll_count ≤ g.reroll_count
      · rw [claimTimeout_max s hst hw hmax]
        exact mem_insertUser_self _ _
      · cases hsel : selectWinner (g.entries.map Prod.fst)
            (insertUser w g.excluded_user_ids) s with
        | some w2 =>
          rw [claimTimeout_reroll hst hw hmax hsel]
          exact mem_insertUser_self _ _
        | none =>
          rw [claimTimeout_empty hst hw hmax hsel]
          exact mem_insertUser_self _ _
    · exfalso
      apply hch
      show (claimTimeout g s).announced_winner_id = some w
      rw [claimTimeout_noop s hst]; exact hw
  | cancelReq =>
    exfalso
    apply hch
    show (cancelGiveaway g).announced_winner_id = some w
    by_cases hst : g.status = SpecStatus.Active
    · rw [cancel_active hst]; exact hw
    · rw [cancel_noop hst]; exact hw

theorem step_excluded_not_reannounced {g : Giveaway} (e : Event) {w : String}
    (hex : w ∈ g.excluded_user_ids)
    (hann : (step g e).announced_winner_id = some w) :
    g.announced_winner_id = some w := by
  cases e with
  | enterReq c now =>
    have hann' : (enter g c now).1.announced_winner_id = some w := hann
    cases hv : validateEntry g c now with
    | some r => rw [enter_rejected hv] at hann'; exact hann'
    | none => rw [enter_ok hv] at hann'; exact hann'
  | endJob s =>
    have hann' : (endGiveaway g s).announced_winner_id = some w := hann
    by_cases hst : g.status = SpecStatus.Active
    · cases hsel : selectWinner (g.entries.map Prod.fst) g.excluded_user_ids s with
      | some w2 =>
        rw [endGiveaway_pick hst hsel] at hann'
        have hw2 : w2 = w := by simpa using hann'
        subst hw2
        exact absurd hex (selectWinner_mem hsel).2
      | none => rw [endGiveaway_empty hst hsel] at hann'; exact hann'
    · rw [endGiveaway_noop s hst] at hann'; exact hann'
  | claimReq u =>
    have hann' : (claimPrize g u).1.announced_winner_id = some w := hann
    by_cases hst : g.status = SpecStatus.AwaitingClaim
    · by_cases hwin : g.announced_winner_id = some u
      · rw [claimPrize_confirmed hst hwin] at hann'; exact hann'
      · rw [claimPrize_notwinner hst hwin] at hann'; exact hann'
    · rw [claimPrize_resolved u hst] at hann'; exact hann'
  | timeoutJob s =>
    have hann' : (claimTimeout g s).announced_winner_id = some w := hann
    by_cases hst : g.status = SpecStatus.AwaitingClaim
    · cases hao : g.announced_winner_id with
      | none =>
        rw [claimTimeout_nowinner s hst hao] at hann'
        rw [hao] at hann'
        exact hann'
      | some w0 =>
        by_cases hmax : g.max_reroll_count ≤ g.reroll_count
        · rw [claimTimeout_max s hst hao hmax] at hann'
          have hred : g.announced_winner_id = some w := hann'
          rw [hao] at hred
          exact hred
        · cases hsel : selectWinner (g.entries.map Prod.fst)
              (insertUser w0 g.excluded_user_ids) s with
          | some w2 =>
            rw [claimTimeout_reroll hst hao hmax hsel] at hann'
            have hw2 : w2 = w := by simpa using hann'
            subst hw2
            exact absurd (mem_insertUser _ _ _ hex) (selectWinner_mem hsel).2
          | none =>
            rw [claimTimeout_empty hst hao hmax hsel] at hann'
            have hred : g.announced_winner_id = some w := hann'
            rw [hao] at hred
            exact hred
    · rw [claimTimeout_noop s hst] at hann'; exact hann'
  | cancelReq =>
    have hann' : (cancelGiveaway g).announced_winner_id = some w := hann
    by_cases hst : g.status = SpecStatus.Active
    · rw [cancel_active hst] at hann'; exact hann'
    · rw [cancel_noop hst] at hann'; exact hann'

theorem run_nil (g : Giveaway) : run g [] = g := rfl

theorem run_cons (g : Giveaway) (e : Event) (es : List Event) :
    run g (e :: es) = run (step g e) es := rfl

theorem run_append (g : Giveaway) (es fs : List Event) :
    run g (es ++ fs) = run (run g es) fs := by
  simp [run]

theorem run_excluded_mono (g : Giveaway) (es : List Event) {u : String}
    (h : u ∈ g.excluded_user_ids) : u ∈ (run g es).excluded_user_ids := by
  induction es generalizing g with
  | nil => exact h
  | cons e es ih => exact ih (step g e) (step_excluded_mono g e h)

theorem stateInv_run {g : Giveaway} (es : List Event) (h : StateInv g) :
    StateInv (run g es) := by
  induction es generalizing g with
  | nil => exact h
  | cons e es ih => exact ih (stateInv_step e h)

theorem announced_lost_excluded {g : Giveaway} {w : String} (es : List Event)
    (hInv : StateInv g) (hann : g.announced_winner_id = some w)
    (hlost : (run g es).announced_winner_id ≠ some w) :
    w ∈ (run g es).excluded_user_ids := by
  induction es generalizing g with
  | nil => exact absurd hann hlost
  | cons e es ih =>
    rw [run_cons] at hlost ⊢
    by_cases hg : (step g e).announced_winner_id = some w
    · exact ih (stateInv_step e hInv) hg hlost
    · exact run_excluded_mono _ es (step_announced_change e hInv.2.1 hann hg)

theorem excluded_never_reannounced {g : Giveaway} {w : String} (es : List Event)
    (hex : w ∈ g.excluded_user_ids) (hann : ¬ g.announced_winner_id = some w) :
    ¬ (run g es).announced_winner_id = some w := by
  induction es generalizing g with
  | nil => exact hann
  | cons e es ih =>
    rw [run_cons]
    exact ih (step_excluded_mono g e hex)
      (fun hc => hann (step_excluded_not_reannounced e hex hc))


/-! ### State-machine claim theorems -/

theorem selectWinner_none_of_empty {pool ex : List String} (s : Nat)
    (h : pool.filter (fun u => !(ex.contains u)) = []) :
    selectWinner pool ex s = none := by
  unfold selectWinner
  dsimp only
  exact dif_pos (by rw [h]; rfl)

theorem executeJob_mem {s : SchedState} {j : Job}
    (h : s.ledger.contains j.job_key = true) : executeJob s j = s := by
  unfold executeJob; rw [if_pos h]

/-- C2: in every reachable state `reroll_count ≤ max_reroll_count`, and a
claim-timeout firing with `reroll_count` already at the bound moves to
ExhaustedNoWinner with no selection and no increment. -/
theorem giveaway_reroll_bound (reqs : Requirements) (ends ct m : Nat)
    (es : List Event) :
    (run (mkGiveaway reqs ends ct m) es).reroll_count
      ≤ (run (mkGiveaway reqs ends ct m) es).max_reroll_count
  ∧ ∀ (g : Giveaway) (s : Nat) (w : String),
      g.status = SpecStatus.AwaitingClaim → g.announced_winner_id = some w →
      g.reroll_count = g.max_reroll_count →
      claimTimeout g s
        = { g with status := SpecStatus.ExhaustedNoWinner,
                   excluded_user_ids := insertUser w g.excluded_user_ids } := by
  constructor
  · exact (stateInv_run es (stateInv_mk reqs ends ct m)).1
  · intro g s w hst hw hmax
    exact claimTimeout_max s hst hw (le_of_eq hmax.symm)

/-- C3: an announced winner, once timed out, is excluded and never
announced again; plus the mechanisms (exclusion growth, timeout adds
the winner before rerolling, selection avoids the exclusion set). -/
theorem giveaway_winner_never_reannounced (reqs : Requirements)
    (ends ct m : Nat) (p q rest : List Event) (w : String)
    (h1 : (run (mkGiveaway reqs ends ct m) p).announced_winner_id = some w)
    (h2 : ¬ (run (mkGiveaway reqs ends ct m) (p ++ q)).announced_winner_id
            = some w) :
    ¬ (run (mkGiveaway reqs ends ct m) (p ++ q ++ rest)).announced_winner_id
        = some w
  ∧ w ∈ (run (mkGiveaway reqs ends ct m) (p ++ q)).excluded_user_ids
  ∧ (∀ (g : Giveaway) (e : Event) (u : String),
      u ∈ g.excluded_user_ids → u ∈ (step g e).excluded_user_ids)
  ∧ (∀ (pool ex : List String) (s : Nat) (v : String),
      selectWinner pool ex s = some v → v ∉ ex)
  ∧ (∀ (g : Giveaway) (s : Nat) (v : String),
      g.status = SpecStatus.AwaitingClaim → g.announced_winner_id = some v →
      v ∈ (claimTimeout g s).excluded_user_ids) := by
  have hInvP : StateInv (run (mkGiveaway reqs ends ct m) p) :=
    stateInv_run p (stateInv_mk reqs ends ct m)
  have hex : w ∈ (run (mkGiveaway reqs ends ct m) (p ++ q)).excluded_user_ids := by
    rw [run_append]
    rw [run_append] at h2
    exact announced_lost_excluded q hInvP h1 h2
  refine ⟨?_, hex, ?_, ?_, ?_⟩
  · rw [run_append]
    exact excluded_never_reannounced rest hex h2
  · exact fun g e u hu => step_excluded_mono g e hu
  · exact fun pool ex s v hsel => (selectWinner_mem hsel).2
  · intro g s v hst hv
    by_cases hmax : g.max_reroll_count ≤ g.reroll_count
    · rw [claimTimeout_max s hst hv hmax]
      exact mem_insertUser_self _ _
    · cases hsel : selectWinner (g.entries.map Prod.fst)
          (insertUser v g.excluded_user_ids) s with
      | some w2 =>
        rw [claimTimeout_reroll hst hv hmax hsel]
        exact mem_insertUser_self _ _
      | none =>
        rw [claimTimeout_empty hst hv hmax hsel]
        exact mem_insertUser_self _ _

/-- C4 (Scenario B): a sole entrant who is the announced winner and
never claims — the first claim-timeout exhausts the pool at once:
status ExhaustedNoWinner, `reroll_count` still 0. -/
theorem scenarioB_exhausted (g : Giveaway) (u : String) (s : Nat)
    (h1 : g.status = SpecStatus.AwaitingClaim)
    (h2 : g.entries.map Prod.fst = [u])
    (h3 : g.announced_winner_id = some u)
    (h4 : g.max_reroll_count = 5)
    (h5 : g.reroll_count = 0) :
    (claimTimeout g s).status = SpecStatus.ExhaustedNoWinner
  ∧ (claimTimeout g s).reroll_count = 0 := by
  have hmax : ¬ g.max_reroll_count ≤ g.reroll_count := by omega
  have hc : (insertUser u g.excluded_user_ids).contains u = true := by
    simpa using mem_insertUser_self u g.excluded_user_ids
  have hfil : ([u].filter fun x => !((insertUser u g.excluded_user_ids).contains x))
      = [] := by
    simp [List.filter_cons, hc]
    exact mem_insertUser_self u g.excluded_user_ids
  have hsel : selectWinner (g.entries.map Prod.fst)
      (insertUser u g.excluded_user_ids) s = none := by
    rw [h2]
    exact selectWinner_none_of_empty s hfil
  rw [claimTimeout_empty h1 h3 hmax hsel]
  exact ⟨rfl, h5⟩

/-- C5: entry uniqueness — reachable states never hold two entries for
one user; a second `Enter` by the same user is Rejected(DuplicateEntry)
leaving the first entry untouched; and the SQL
`UNIQUE(giveaway_id, user_id)` constraint rejects a duplicate row. -/
theorem entries_unique (reqs : Requirements) (ends ct m : Nat)
    (es : List Event) (g g1 : Giveaway) (c c1 : Candidate) (now now1 : Nat) :
    ((run (mkGiveaway reqs ends ct m) es).entries.map Prod.fst).Nodup
  ∧ (enter g c now = (g1, EnterResult.Accepted) → c1.user_id = c.user_id →
      now1 < g1.ends_at →
      enter g1 c1 now1 = (g1, EnterResult.Rejected EntryRejection.DuplicateEntry)
      ∧ g1.entries = (c.user_id, now) :: g.entries)
  ∧ (∀ (t : List EntryRow) (e0 r0 : EntryRow), e0 ∈ t →
      e0.giveaway_id = r0.giveaway_id → e0.user_id = r0.user_id →
      insertEntryRow t r0 = none) := by
  refine ⟨(stateInv_run es (stateInv_mk reqs ends ct m)).2.2, ?_, ?_⟩
  · intro hacc hcu hnow
    obtain ⟨hv, hg1⟩ := enter_accepted hacc
    obtain ⟨hst, hend, _⟩ := validateEntry_none hv
    have hg1status : g1.status = SpecStatus.Active := by rw [hg1]; exact hst
    have hdup : (g1.entries.map Prod.fst).contains c1.user_id = true := by
      rw [hg1, hcu]
      simp
    have hcondA : ¬¬(g1.status = SpecStatus.Active ∧ now1 < g1.ends_at) :=
      not_not_intro ⟨hg1status, hnow⟩
    have hv1 : validateEntry g1 c1 now1 = some EntryRejection.DuplicateEntry := by
      unfold validateEntry
      rw [if_neg hcondA, if_pos hdup]
    exact ⟨enter_rejected hv1, by rw [hg1]⟩
  · intro t e0 r0 hmem hgid huid
    have hany : (t.any fun e =>
        e.giveaway_id == r0.giveaway_id && e.user_id == r0.user_id) = true :=
      List.any_eq_true.mpr ⟨e0, hmem, by simp [hgid, huid]⟩
    unfold insertEntryRow
    rw [if_pos hany]

/-- C6: executing a job a second time under the same `job_key` leaves
the scheduler state — giveaway row, ledger, notification count —
exactly as after the first execution, and one execution emits at most
one notification. -/
theorem job_execution_idempotent (s : SchedState) (j : Job) :
    executeJob (executeJob s j) j = executeJob s j
  ∧ (executeJob (executeJob s j) j).announceCount = (executeJob s j).announceCount
  ∧ (executeJob s j).announceCount ≤ s.announceCount + 1 := by
  have hkey : (executeJob s j).ledger.contains j.job_key = true := by
    unfold executeJob
    split
    · next h => exact h
    · simp
  have hidem : executeJob (executeJob s j) j = executeJob s j :=
    executeJob_mem hkey
  refine ⟨hidem, by rw [hidem], ?_⟩
  unfold executeJob
  split
  · exact Nat.le_succ _
  · dsimp only
    split <;> omega

/-- C8: the scheduler's retry policy — increment `attempt_count`;
re-enqueue with exponential backoff 1s/2s/4s while the budget allows;
beyond three attempts the job is DeadLettered and no worker ever
executes it again. -/
theorem scheduler_retry_policy (j : JobRec) (now : Nat) :
    (onFailure now j).attempt_count = j.attempt_count + 1
  ∧ (j.attempt_count + 1 ≤ 3 →
      (onFailure now j).jobStatus = JobStatus.Pending
      ∧ (onFailure now j).next_retry_at
          = some (now + baseDelay * 2 ^ j.attempt_count))
  ∧ (3 < j.attempt_count + 1 →
      (onFailure now j).jobStatus = JobStatus.DeadLettered
      ∧ (onFailure now j).next_retry_at = none)
  ∧ retryDelay 1 = 1 ∧ retryDelay 2 = 2 ∧ retryDelay 3 = 4
  ∧ (∀ (now2 : Nat) (ok : Bool) (j2 : JobRec),
      j2.jobStatus = JobStatus.DeadLettered → executeDue j2 now2 ok = j2) := by
  refine ⟨?_, ?_, ?_, by decide, by decide, by decide, ?_⟩
  · unfold onFailure
    dsimp only
    split <;> rfl
  · intro h
    have h' : j.attempt_count + 1 ≤ maxAttempts := by unfold maxAttempts; omega
    unfold onFailure
    dsimp only
    rw [if_pos h']
    refine ⟨rfl, ?_⟩
    show some (now + retryDelay (j.attempt_count + 1)) = _
    simp [retryDelay]
  · intro h
    have h' : ¬(j.attempt_count + 1 ≤ maxAttempts) := by unfold maxAttempts; omega
    unfold onFailure
    dsimp only
    rw [if_neg h']
    exact ⟨rfl, rfl⟩
  · intro now2 ok j2 hdl
    unfold executeDue
    rw [if_neg (show ¬(j2.jobStatus = JobStatus.Pending) by rw [hdl]; simp)]


/-! ### Lemmas on the query retry loop -/

theorem queryFrom_ok {α : Type} {outcome : Nat → Except PgError α}
    {retries attempt : Nat} {v : α}
    (h : attempt ≤ retries) (hv : outcome attempt = .ok v) :
    queryFrom outcome retries attempt = (.ok v, []) := by
  rw [queryFrom, dif_pos h, hv]

theorem queryFrom_retry {α : Type} {outcome : Nat → Except PgError α}
    {retries attempt : Nat} {e : PgError}
    (h : attempt ≤ retries) (he : outcome attempt = .error e)
    (hc : (decide (attempt < retries) && isConnectionError e) = true) :
    queryFrom outcome retries attempt
      = ((queryFrom outcome retries (attempt + 1)).1,
         retrySleep attempt :: (queryFrom outcome retries (attempt + 1)).2) := by
  rw [queryFrom, dif_pos h, he]
  dsimp only
  rw [if_pos hc]

theorem queryFrom_throw {α : Type} {outcome : Nat → Except PgError α}
    {retries attempt : Nat} {e : PgError}
    (h : attempt ≤ retries) (he : outcome attempt = .error e)
    (hc : ¬((decide (attempt < retries) && isConnectionError e) = true)) :
    queryFrom outcome retries attempt = (.error (some e), []) := by
  rw [queryFrom, dif_pos h, he]
  dsimp only
  rw [if_neg hc]

theorem queryFrom_out {α : Type} {outcome : Nat → Except PgError α}
    {retries attempt : Nat} (h : ¬ attempt ≤ retries) :
    queryFrom outcome retries attempt = (.error none, []) := by
  rw [queryFrom, dif_neg h]

theorem queryFrom_len {α : Type} (outcome : Nat → Except PgError α)
    (retries attempt : Nat) :
    (queryFrom outcome retries attempt).2.length + attempt ≤ max retries attempt := by
  refine queryFrom.induct outcome retries
    (fun a => (queryFrom outcome retries a).2.length + a ≤ max retries a)
    ?_ ?_ ?_ ?_ attempt
  · intro x hx v hv
    rw [queryFrom_ok hx hv]; simp
  · intro x hx e he hc ih
    rw [queryFrom_retry hx he hc]
    have hlt : x < retries := by
      have := (Bool.and_eq_true _ _).mp hc
      simpa using this.1
    simp only [List.length_cons]
    omega
  · intro x hx e he hc
    rw [queryFrom_throw hx he hc]; simp
  · intro x hx
    rw [queryFrom_out hx]; simp

theorem queryFrom_delays {α : Type} (outcome : Nat → Except PgError α)
    (retries attempt : Nat) :
    ∀ (i : Nat) (d : Nat),
      (queryFrom outcome retries attempt).2.get? i = some d →
      d = retrySleep (attempt + i) := by
  refine queryFrom.induct outcome retries
    (fun a => ∀ (i : Nat) (d : Nat),
      (queryFrom outcome retries a).2.get? i = some d → d = retrySleep (a + i))
    ?_ ?_ ?_ ?_ attempt
  · intro x hx v hv i d hd
    rw [queryFrom_ok hx hv] at hd
    exact absurd hd (by simp)
  · intro x hx e he hc ih i d hd
    rw [queryFrom_retry hx he hc] at hd
    cases i with
    | zero =>
      simp only [List.get?] at hd
      rw [Option.some_inj] at hd
      rw [Nat.add_zero]
      exact hd.symm
    | succ i0 =>
      simp only [List.get?] at hd
      have := ih i0 d hd
      rw [show x + (i0 + 1) = x + 1 + i0 by omega]
      exact this
  · intro x hx e he hc i d hd
    rw [queryFrom_throw hx he hc] at hd
    exact absurd hd (by simp)
  · intro x hx i d hd
    rw [queryFrom_out hx] at hd
    exact absurd hd (by simp)

theorem queryFrom_retried_conn {α : Type} (outcome : Nat → Except PgError α)
    (retries attempt : Nat) :
    ∀ i : Nat, i < (queryFrom outcome retries attempt).2.length →
      ∃ e, outcome (attempt + i) = Except.error e
        ∧ isConnectionError e = true ∧ attempt + i < retries := by
  refine queryFrom.induct outcome retries
    (fun a => ∀ i : Nat, i < (queryFrom outcome retries a).2.length →
      ∃ e, outcome (a + i) = Except.error e
        ∧ isConnectionError e = true ∧ a + i < retries)
    ?_ ?_ ?_ ?_ attempt
  · intro x hx v hv i hi
    rw [queryFrom_ok hx hv] at hi
    exact absurd hi (by simp)
  · intro x hx e he hc ih i hi
    have hconj := (Bool.and_eq_true _ _).mp hc
    have hlt : x < retries := by simpa using hconj.1
    cases i with
    | zero => exact ⟨e, by simpa using he, hconj.2, by omega⟩
    | succ i0 =>
      rw [queryFrom_retry hx he hc] at hi
      simp only [List.length_cons] at hi
      have := ih i0 (by omega)
      rw [show x + (i0 + 1) = x + 1 + i0 by omega]
      exact this
  · intro x hx e he hc i hi
    rw [queryFrom_throw hx he hc] at hi
    exact absurd hi (by simp)
  · intro x hx i hi
    rw [queryFrom_out hx] at hi
    exact absurd hi (by simp)

theorem queryFrom_err {α : Type} (outcome : Nat → Except PgError α)
    (retries attempt : Nat) :
    ∀ e0 : PgError,
      (queryFrom outcome retries attempt).1 = Except.error (some e0) →
      outcome (attempt + (queryFrom outcome retries attempt).2.length)
          = Except.error e0
      ∧ (isConnectionError e0 = false
         ∨ attempt + (queryFrom outcome retries attempt).2.length = retries) := by
  refine queryFrom.induct outcome retries
    (fun a => ∀ e0 : PgError,
      (queryFrom outcome retries a).1 = Except.error (some e0) →
      outcome (a + (queryFrom outcome retries a).2.length) = Except.error e0
      ∧ (isConnectionError e0 = false
         ∨ a + (queryFrom outcome retries a).2.length = retries))
    ?_ ?_ ?_ ?_ attempt
  · intro x hx v hv e0 h0
    rw [queryFrom_ok hx hv] at h0
    exact absurd h0 (by simp)
  · intro x hx e he hc ih e0 h0
    rw [queryFrom_retry hx he hc] at h0 ⊢
    dsimp only at h0 ⊢
    have := ih e0 h0
    simp only [List.length_cons]
    rw [show x + ((queryFrom outcome retries (x + 1)).2.length + 1)
          = x + 1 + (queryFrom outcome retries (x + 1)).2.length by omega]
    exact this
  · intro x hx e he hc e0 h0
    rw [queryFrom_throw hx he hc] at h0 ⊢
    dsimp only at h0 ⊢
    rw [show (Except.error (some e) : Except (Option PgError) α)
          = Except.error (some e0) ↔ e = e0 by simp] at h0
    subst h0
    refine ⟨by simpa using he, ?_⟩
    rw [Bool.and_eq_true] at hc
    push_neg at hc
    by_cases hlt : x < retries
    · left
      have := hc (by simpa using hlt)
      simpa using this
    · right
      simp only [List.length_nil]
      omega
  · intro x hx e0 h0
    rw [queryFrom_out hx] at h0
    exact absurd h0 (by simp)

theorem queryFrom_succeeds {α : Type} (outcome : Nat → Except PgError α)
    (retries attempt : Nat) :
    ∀ v : α,
      (queryFrom outcome retries attempt).1 = Except.ok v →
      outcome (attempt + (queryFrom outcome retries attempt).2.length)
        = Except.ok v := by
  refine queryFrom.induct outcome retries
    (fun a => ∀ v : α,
      (queryFrom outcome retries a).1 = Except.ok v →
      outcome (a + (queryFrom outcome retries a).2.length) = Except.ok v)
    ?_ ?_ ?_ ?_ attempt
  · intro x hx v hv v0 h0
    rw [queryFrom_ok hx hv] at h0 ⊢
    dsimp only at h0 ⊢
    rw [show (Except.ok v : Except (Option PgError) α) = Except.ok v0 ↔ v = v0
          by simp] at h0
    subst h0
    simpa using hv
  · intro x hx e he hc ih v0 h0
    rw [queryFrom_retry hx he hc] at h0 ⊢
    dsimp only at h0 ⊢
    have := ih v0 h0
    simp only [List.length_cons]
    rw [show x + ((queryFrom outcome retries (x + 1)).2.length + 1)
          = x + 1 + (queryFrom outcome retries (x + 1)).2.length by omega]
    exact this
  · intro x hx e he hc v0 h0
    rw [queryFrom_throw hx he hc] at h0
    exact absurd h0 (by simp)
  · intro x hx v0 h0
    rw [queryFrom_out hx] at h0
    exact absurd h0 (by simp)

/-- C9: `DatabaseConnection.query` retries a failed attempt only on a
connection error with attempts remaining, rethrows any other error at
once after the failing attempt, makes at most `retries` attempts, and
sleeps `min(1000 * 2^(attempt-1), 5000)` ms between attempts. -/
theorem query_retry_contract {α : Type} (outcome : Nat → Except PgError α)
    (retries : Nat) :
    (query outcome retries).2.length + 1 ≤ max retries 1
  ∧ (∀ i d : Nat, (query outcome retries).2.get? i = some d →
      d = min (1000 * 2 ^ i) 5000)
  ∧ (∀ i : Nat, i < (query outcome retries).2.length →
      ∃ e, outcome (1 + i) = Except.error e ∧ isConnectionError e = true
        ∧ 1 + i < retries)
  ∧ (∀ e, (query outcome retries).1 = Except.error (some e) →
      outcome (1 + (query outcome retries).2.length) = Except.error e
      ∧ (isConnectionError e = false
         ∨ 1 + (query outcome retries).2.length = retries))
  ∧ (∀ v, (query outcome retries).1 = Except.ok v →
      outcome (1 + (query outcome retries).2.length) = Except.ok v) := by
  refine ⟨queryFrom_len outcome retries 1, ?_, ?_, ?_, ?_⟩
  · intro i d hg
    have hd := queryFrom_delays outcome retries 1 i d hg
    rw [hd]
    simp [retrySleep]
  · exact queryFrom_retried_conn outcome retries 1
  · intro e he
    have := queryFrom_err outcome retries 1 e he
    constructor
    · rw [show 1 + (query outcome retries).2.length
            = 1 + (queryFrom outcome retries 1).2.length from rfl]
      exact this.1
    · rcases this.2 with hl | hr
      · exact Or.inl hl
      · exact Or.inr hr
  · intro v hv
    exact queryFrom_succeeds outcome retries 1 v hv


/-! ### Schema and XP claim theorems -/

theorem int_sqrt_mono {a b : ℤ} (h : a ≤ b) : Int.sqrt a ≤ Int.sqrt b := by
  unfold Int.sqrt
  exact_mod_cast Nat.sqrt_le_sqrt (Int.toNat_le_toNat h)

/-- C10: `calculate_level` inverts `xp_for_level` on every level, and is
monotone non-decreasing on nonnegative XP. -/
theorem level_functions_consistent :
    (∀ L : ℤ, 0 ≤ L → calculate_level (xp_for_level L) = L)
  ∧ (∀ x y : ℤ, 0 ≤ x → x ≤ y → calculate_level x ≤ calculate_level y) := by
  constructor
  · intro L hL
    obtain ⟨n, rfl⟩ := Int.eq_ofNat_of_zero_le hL
    unfold calculate_level xp_for_level
    have hq : (((↑n * ↑n * 100 : ℤ) : ℚ)) / 100 = ((n * n : ℕ) : ℚ) := by
      rw [div_eq_iff (by norm_num : (100 : ℚ) ≠ 0)]
      push_cast
      ring
    rw [hq, Int.floor_natCast, Int.sqrt_natCast, Nat.sqrt_eq]
  · intro x y hx hxy
    unfold calculate_level
    have h1 : (x : ℚ) / 100 ≤ (y : ℚ) / 100 :=
      (div_le_div_iff_of_pos_right (by norm_num : (0 : ℚ) < 100)).mpr (by exact_mod_cast hxy)
    exact int_sqrt_mono (Int.floor_le_floor h1)

/-- C1 counterexample: the migration's status CHECK rejects the spec
states AwaitingClaim and ExhaustedNoWinner. -/
theorem spec_states_not_all_admissible :
    statusAdmissible (SpecStatus.dbString SpecStatus.AwaitingClaim) = false
  ∧ statusAdmissible (SpecStatus.dbString SpecStatus.ExhaustedNoWinner) = false := by
  decide

/-- C1 amended: a persistable `giveaways` row bears one of exactly four
statuses — active, ended, completed, cancelled — each of which is
admissible; the two remaining spec states are not storable. -/
theorem status_check_admits_exactly_four (r : GiveawayRow)
    (h : giveawayRowCheck r = true) :
    (r.status = SpecStatus.dbString SpecStatus.Active
     ∨ r.status = SpecStatus.dbString SpecStatus.Ended
     ∨ r.status = SpecStatus.dbString SpecStatus.Completed
     ∨ r.status = SpecStatus.dbString SpecStatus.Cancelled)
  ∧ ¬ r.status = SpecStatus.dbString SpecStatus.AwaitingClaim
  ∧ ¬ r.status = SpecStatus.dbString SpecStatus.ExhaustedNoWinner
  ∧ statusAdmissible (SpecStatus.dbString SpecStatus.Active) = true
  ∧ statusAdmissible (SpecStatus.dbString SpecStatus.Ended) = true
  ∧ statusAdmissible (SpecStatus.dbString SpecStatus.Completed) = true
  ∧ statusAdmissible (SpecStatus.dbString SpecStatus.Cancelled) = true := by
  have hs : statusAdmissible r.status = true := ((Bool.and_eq_true _ _).mp h).1
  have hmem : r.status ∈ giveawayStatusCheckList := by
    simpa [statusAdmissible] using hs
  simp only [giveawayStatusCheckList, List.mem_cons, List.mem_singleton,
    List.not_mem_nil, or_false] at hmem
  refine ⟨?_, ?_, ?_, by decide, by decide, by decide, by decide⟩
  · rcases hmem with h0 | h0 | h0 | h0
    · exact Or.inl h0
    · exact Or.inr (Or.inl h0)
    · exact Or.inr (Or.inr (Or.inl h0))
    · exact Or.inr (Or.inr (Or.inr h0))
  · intro hbad
    rw [hbad] at hmem
    rcases hmem with h0 | h0 | h0 | h0 <;> exact absurd h0 (by decide)
  · intro hbad
    rw [hbad] at hmem
    rcases hmem with h0 | h0 | h0 | h0 <;> exact absurd h0 (by decide)

/-- C7 counterexample: a giveaway created with the migration defaults
has `max_rerolls` 3, not the spec's 5. -/
theorem default_max_rerolls_is_not_five :
    (insertGiveawayDefaults "g1" "prize" "c1" 100 "admin").max_rerolls ≠ 5 := by
  decide

/-- C7 amended: the migration defaults are `claim_timeout_seconds` 300
and `max_rerolls` 3 (plus status active, `reroll_count` 0,
`winner_count` 1). -/
theorem giveaway_insert_defaults (guild prize chan : String) (ends : Nat)
    (creator : String) :
    (insertGiveawayDefaults guild prize chan ends creator).claim_timeout_seconds = 300
  ∧ (insertGiveawayDefaults guild prize chan ends creator).max_rerolls = 3
  ∧ (insertGiveawayDefaults guild prize chan ends creator).status = "active"
  ∧ (insertGiveawayDefaults guild prize chan ends creator).reroll_count = 0
  ∧ (insertGiveawayDefaults guild prize chan ends creator).winner_count = 1 :=
  ⟨rfl, rfl, rfl, rfl, rfl⟩


/-! ### Witnesses -/

/-- C2 witness: the reroll bound evaluated on a concrete run, and the
bound-hit timeout evaluated on a concrete exhausted giveaway. -/
theorem giveaway_reroll_bound_witness :
    (run (mkGiveaway wReqs 10 300 5) (wTraceP ++ wTraceQ)).reroll_count
      ≤ (run (mkGiveaway wReqs 10 300 5) (wTraceP ++ wTraceQ)).max_reroll_count
  ∧ claimTimeout wMaxed 0
      = { wMaxed with status := SpecStatus.ExhaustedNoWinner,
                      excluded_user_ids := insertUser "b" wMaxed.excluded_user_ids } :=
  ⟨(giveaway_reroll_bound wReqs 10 300 5 (wTraceP ++ wTraceQ)).1,
   (giveaway_reroll_bound wReqs 10 300 5 (wTraceP ++ wTraceQ)).2 wMaxed 0 "b"
     rfl rfl rfl⟩

/-- C3 witness: on a concrete run, winner `b` of the end transition is
timed out, excluded, and never announced again. -/
theorem giveaway_winner_never_reannounced_witness :
    (¬ (run (mkGiveaway wReqs 10 300 5)
          (wTraceP ++ wTraceQ ++ wTraceQ)).announced_winner_id = some "b")
  ∧ "b" ∈ (run (mkGiveaway wReqs 10 300 5) (wTraceP ++ wTraceQ)).excluded_user_ids
  ∧ (∀ (g : Giveaway) (e : Event) (u : String),
      u ∈ g.excluded_user_ids → u ∈ (step g e).excluded_user_ids)
  ∧ (∀ (pool ex : List String) (s : Nat) (v : String),
      selectWinner pool ex s = some v → v ∉ ex)
  ∧ (∀ (g : Giveaway) (s : Nat) (v : String),
      g.status = SpecStatus.AwaitingClaim → g.announced_winner_id = some v →
      v ∈ (claimTimeout g s).excluded_user_ids) :=
  giveaway_winner_never_reannounced wReqs 10 300 5 wTraceP wTraceQ wTraceQ "b"
    (by decide) (by decide)

/-- C4 witness: Scenario B evaluated on the concrete fixture. -/
theorem scenarioB_exhausted_witness :
    (claimTimeout wSoloAwait 0).status = SpecStatus.ExhaustedNoWinner
  ∧ (claimTimeout wSoloAwait 0).reroll_count = 0 :=
  scenarioB_exhausted wSoloAwait "solo" 0 rfl rfl rfl rfl rfl

/-- C5 witness: concrete double-enter and duplicate-row insert. -/
theorem entries_unique_witness :
    ((run (mkGiveaway wReqs 10 300 5) wTraceP).entries.map Prod.fst).Nodup
  ∧ (enter wG1 (wCand "a") 3
       = (wG1, EnterResult.Rejected EntryRejection.DuplicateEntry)
     ∧ wG1.entries = ("a", 0) :: (mkGiveaway wReqs 10 300 5).entries)
  ∧ insertEntryRow [wRow] wRow2 = none := by
  have h := entries_unique wReqs 10 300 5 wTraceP
    (mkGiveaway wReqs 10 300 5) wG1 (wCand "a") (wCand "a") 0 3
  exact ⟨h.1, h.2.1 rfl rfl (by decide), h.2.2 [wRow] wRow wRow2 (by simp) rfl rfl⟩

/-- C8 witness: the retry policy evaluated on concrete job records. -/
theorem scheduler_retry_policy_witness :
    (onFailure 100 wJob).attempt_count = wJob.attempt_count + 1
  ∧ ((onFailure 100 wJob).jobStatus = JobStatus.Pending
     ∧ (onFailure 100 wJob).next_retry_at
         = some (100 + baseDelay * 2 ^ wJob.attempt_count))
  ∧ retryDelay 1 = 1 ∧ retryDelay 2 = 2 ∧ retryDelay 3 = 4
  ∧ executeDue wDead 7 true = wDead := by
  have h := scheduler_retry_policy wJob 100
  exact ⟨h.1, h.2.1 (by decide), h.2.2.2.1, h.2.2.2.2.1, h.2.2.2.2.2.1,
    h.2.2.2.2.2.2 7 true wDead rfl⟩

/-- C9 witness: a concrete query that fails once with a connection
error, sleeps 1000 ms, and succeeds on the second attempt. -/
theorem query_retry_contract_witness :
    ([1000] : List Nat).length + 1 ≤ max 3 1
  ∧ (1000 : Nat) = min (1000 * 2 ^ 0) 5000
  ∧ (∃ e, wOutcome (1 + 0) = Except.error e ∧ isConnectionError e = true
       ∧ 1 + 0 < 3)
  ∧ wOutcome (1 + ([1000] : List Nat).length) = Except.ok 42 := by
  have e1 : query wOutcome 3 = (Except.ok 42, [1000]) := by
    show queryFrom wOutcome 3 1 = _
    rw [queryFrom_retry (by norm_num) (show wOutcome 1 = Except.error wConnErr from rfl)
      (by decide)]
    rw [queryFrom_ok (by norm_num : (2 : Nat) ≤ 3)
      (show wOutcome 2 = Except.ok 42 from rfl)]
    rfl
  have h := query_retry_contract wOutcome 3
  rw [e1] at h
  exact ⟨h.1, h.2.1 0 1000 rfl, h.2.2.1 0 (by decide), h.2.2.2.2 42 rfl⟩

/-- C10 witness: the roundtrip and monotonicity at concrete points. -/
theorem level_functions_consistent_witness :
    calculate_level (xp_for_level 7) = 7
  ∧ calculate_level 150 ≤ calculate_level 250 :=
  ⟨level_functions_consistent.1 7 (by norm_num),
   level_functions_consistent.2 150 250 (by norm_num) (by norm_num)⟩

/-- C1 witness: the amended status theorem evaluated on the concrete
default row. -/
theorem status_check_admits_exactly_four_witness :
    (wRowDefault.status = SpecStatus.dbString SpecStatus.Active
     ∨ wRowDefault.status = SpecStatus.dbString SpecStatus.Ended
     ∨ wRowDefault.status = SpecStatus.dbString SpecStatus.Completed
     ∨ wRowDefault.status = SpecStatus.dbString SpecStatus.Cancelled)
  ∧ ¬ wRowDefault.status = SpecStatus.dbString SpecStatus.AwaitingClaim
  ∧ ¬ wRowDefault.status = SpecStatus.dbString SpecStatus.ExhaustedNoWinner
  ∧ statusAdmissible (SpecStatus.dbString SpecStatus.Active) = true
  ∧ statusAdmissible (SpecStatus.dbString SpecStatus.Ended) = true
  ∧ statusAdmissible (SpecStatus.dbString SpecStatus.Completed) = true
  ∧ statusAdmissible (SpecStatus.dbString SpecStatus.Cancelled) = true :=
  status_check_admits_exactly_four wRowDefault (by decide)


end Zarly
